import Mathlib

/-!
Shallow embedding of the OpenNN numerical core under verification:
`src/opennn/perceptron_layer.cpp`, `src/opennn/quasi_newton_method.h`
and `src/opennn/tensor_utilities.cpp`.

Eigen tensors of `type` (a floating scalar) are modelled as structures
carrying their runtime dimensions and a total entry function over exact
rationals; the column-major linear data layout of Eigen is modelled
explicitly where the source manipulates raw buffers (`data()`,
`memcpy`, `fill_n`, `TensorMap`).  Real numbers appear only where the
source takes a square root (`l2_norm`).
-/

namespace OpenNN

/-- Eigen `Tensor<type, 1>`: a vector with its runtime size. -/
structure Tensor1 where
  size : Nat
  entry : Nat → ℚ

/-- Eigen `Tensor<type, 2>`: a matrix with its runtime dimensions.
`entry r c` is the element at row `r`, column `c`. -/
structure Tensor2 where
  rows : Nat
  cols : Nat
  entry : Nat → Nat → ℚ

/-- Eigen `Tensor::size()` of a rank-2 tensor: product of the dimensions. -/
def Tensor2.size (t : Tensor2) : Nat := t.rows * t.cols

/-- Column-major linear indexing of an Eigen rank-2 tensor:
`data[k]` is the element at row `k % rows`, column `k / rows`
(row index fastest within each column). -/
def Tensor2.linear (t : Tensor2) (k : Nat) : ℚ := t.entry (k % t.rows) (k / t.rows)

/-- Eigen `Tensor<type, 3>`: a rank-3 tensor with its runtime dimensions. -/
structure Tensor3 where
  dim0 : Nat
  dim1 : Nat
  dim2 : Nat
  entry : Nat → Nat → Nat → ℚ

/-- `PerceptronLayer::ActivationFunction` enumeration
(perceptron_layer.h, used throughout perceptron_layer.cpp). -/
inductive ActivationFunction
  | Threshold
  | SymmetricThreshold
  | Logistic
  | HyperbolicTangent
  | Linear
  | RectifiedLinear
  | ExponentialLinear
  | ScaledExponentialLinear
  | SoftPlus
  | SoftSign
  | HardSigmoid
deriving DecidableEq

/-- The `PerceptronLayer` data model: `biases` is the Eigen
`Tensor<type, 2>` of dimensions 1 x neurons, modelled here through its
linear data (its `size()` and single-index access `biases(i)`, which is
how the source reads it); `synaptic_weights` is inputs x neurons. -/
structure PerceptronLayer where
  biases : Tensor1
  synaptic_weights : Tensor2
  activation_function : ActivationFunction

/-- `PerceptronLayer::get_inputs_number`: row count of the weights. -/
def PerceptronLayer.get_inputs_number (L : PerceptronLayer) : Nat :=
  L.synaptic_weights.rows

/-- `PerceptronLayer::get_neurons_number`: size of the biases tensor. -/
def PerceptronLayer.get_neurons_number (L : PerceptronLayer) : Nat :=
  L.biases.size

/-- `PerceptronLayer::get_biases_number`. -/
def PerceptronLayer.get_biases_number (L : PerceptronLayer) : Nat :=
  L.biases.size

/-- `PerceptronLayer::get_synaptic_weights_number`. -/
def PerceptronLayer.get_synaptic_weights_number (L : PerceptronLayer) : Nat :=
  L.synaptic_weights.size

/-- `PerceptronLayer::get_parameters_number`. -/
def PerceptronLayer.get_parameters_number (L : PerceptronLayer) : Nat :=
  L.biases.size + L.synaptic_weights.size

/-- `PerceptronLayer::get_parameters` (perceptron_layer.cpp, lines 150-165):
`parameters[i] = biases(i)` for `i < biases.size()`, then
`parameters[biases.size() + i] = synaptic_weights(i)` where
`synaptic_weights(i)` is the column-major linear element `i`. -/
def PerceptronLayer.get_parameters (L : PerceptronLayer) : Tensor1 where
  size := L.biases.size + L.synaptic_weights.size
  entry := fun i =>
    if i < L.biases.size then L.biases.entry i
    else L.synaptic_weights.linear (i - L.biases.size)

/-- `PerceptronLayer::set_parameters` (perceptron_layer.cpp, lines 338-350):
`memcpy` of `biases_number` scalars from `new_parameters.data() + index`
into the biases buffer, then `synaptic_weights_number` scalars from
`new_parameters.data() + biases_number + index` into the column-major
weights buffer, so the element at row `r`, column `c` of the weights
comes from linear position `index + biases_number + c * rows + r`. -/
def PerceptronLayer.set_parameters (L : PerceptronLayer) (new_parameters : Tensor1)
    (index : Nat) : PerceptronLayer where
  biases :=
    { size := L.biases.size
      entry := fun i => new_parameters.entry (index + i) }
  synaptic_weights :=
    { rows := L.synaptic_weights.rows
      cols := L.synaptic_weights.cols
      entry := fun r c =>
        new_parameters.entry (index + L.biases.size + c * L.synaptic_weights.rows + r) }
  activation_function := L.activation_function

/-- C1: for every perceptron layer, `get_parameters()` followed by
`set_parameters()` with the returned vector at index 0 leaves the
biases and synaptic weights elementwise identical (and the dimensions
unchanged). -/
theorem C1_get_set_parameters_roundtrip (L : PerceptronLayer) :
    ((L.set_parameters L.get_parameters 0).biases.size = L.biases.size) ∧
    ((L.set_parameters L.get_parameters 0).synaptic_weights.rows = L.synaptic_weights.rows) ∧
    ((L.set_parameters L.get_parameters 0).synaptic_weights.cols = L.synaptic_weights.cols) ∧
    (∀ i, i < L.biases.size →
      (L.set_parameters L.get_parameters 0).biases.entry i = L.biases.entry i) ∧
    (∀ r c, r < L.synaptic_weights.rows → c < L.synaptic_weights.cols →
      (L.set_parameters L.get_parameters 0).synaptic_weights.entry r c =
        L.synaptic_weights.entry r c) := by
  refine ⟨rfl, rfl, rfl, ?_, ?_⟩
  · intro i hi
    simp [PerceptronLayer.set_parameters, PerceptronLayer.get_parameters, hi]
  · intro r c hr _
    have hrows : 0 < L.synaptic_weights.rows := Nat.lt_of_le_of_lt (Nat.zero_le r) hr
    have hnotlt : ¬ (0 + L.biases.size + c * L.synaptic_weights.rows + r < L.biases.size) := by
      omega
    simp only [PerceptronLayer.set_parameters, PerceptronLayer.get_parameters,
      Tensor2.linear, hnotlt, if_false]
    have harith : 0 + L.biases.size + c * L.synaptic_weights.rows + r - L.biases.size =
        r + c * L.synaptic_weights.rows := by omega
    rw [harith]
    have hmod : (r + c * L.synaptic_weights.rows) % L.synaptic_weights.rows = r := by
      rw [Nat.add_mul_mod_self_right, Nat.mod_eq_of_lt hr]
    have hdiv : (r + c * L.synaptic_weights.rows) / L.synaptic_weights.rows = c := by
      rw [Nat.add_mul_div_right _ _ hrows, Nat.div_eq_of_lt hr, Nat.zero_add]
    rw [hmod, hdiv]

/-- Witness for C1 at a concrete 2-input, 2-neuron layer. -/
theorem C1_get_set_parameters_roundtrip_witness :
    (({ biases := ⟨2, fun i => (i : ℚ) + 5⟩
        synaptic_weights := ⟨2, 2, fun r c => (r : ℚ) + 10 * (c : ℚ)⟩
        activation_function := ActivationFunction.Linear } : PerceptronLayer).set_parameters
      ({ biases := ⟨2, fun i => (i : ℚ) + 5⟩
         synaptic_weights := ⟨2, 2, fun r c => (r : ℚ) + 10 * (c : ℚ)⟩
         activation_function := ActivationFunction.Linear } : PerceptronLayer).get_parameters
      0).synaptic_weights.entry 1 1 =
    ({ biases := ⟨2, fun i => (i : ℚ) + 5⟩
       synaptic_weights := ⟨2, 2, fun r c => (r : ℚ) + 10 * (c : ℚ)⟩
       activation_function := ActivationFunction.Linear } : PerceptronLayer).synaptic_weights.entry 1 1 :=
  (C1_get_set_parameters_roundtrip _).2.2.2.2 1 1 (by decide) (by decide)

/-- Decoding a column-major linear position `c * rows + r` with `r < rows`
recovers the element at row `r`, column `c`. -/
theorem Tensor2.linear_colmajor (t : Tensor2) (r c : Nat) (hr : r < t.rows) :
    t.linear (c * t.rows + r) = t.entry r c := by
  have hrows : 0 < t.rows := Nat.lt_of_le_of_lt (Nat.zero_le r) hr
  have hmod : (c * t.rows + r) % t.rows = r := by
    rw [Nat.add_comm, Nat.add_mul_mod_self_right, Nat.mod_eq_of_lt hr]
  have hdiv : (c * t.rows + r) / t.rows = c := by
    rw [Nat.add_comm, Nat.add_mul_div_right _ _ hrows, Nat.div_eq_of_lt hr, Nat.zero_add]
  rw [Tensor2.linear, hmod, hdiv]

/-- With `r < rows` and `c < cols`, the column-major position `c * rows + r`
is inside the buffer. -/
theorem colmajor_lt (rows cols r c : Nat) (hr : r < rows) (hc : c < cols) :
    c * rows + r < rows * cols := by
  calc c * rows + r < c * rows + rows := Nat.add_lt_add_left hr _
    _ = (c + 1) * rows := by ring
    _ ≤ cols * rows := Nat.mul_le_mul_right rows (Nat.succ_le_of_lt hc)
    _ = rows * cols := Nat.mul_comm _ _

/-- `PerceptronLayerForwardPropagation` scratch buffers
(perceptron_layer.h): per-batch combinations, activations and
activation derivatives, each batch x neurons. -/
structure PerceptronLayerForwardPropagation where
  combinations : Tensor2
  activations : Tensor2
  activations_derivatives : Tensor2

/-- `PerceptronLayerBackPropagation` scratch buffers (perceptron_layer.h):
the delta (batch x neurons), the bias-gradient accumulator (neurons) and
the weight-gradient accumulator (inputs x neurons). -/
structure PerceptronLayerBackPropagation where
  delta : Tensor2
  biases_derivatives : Tensor1
  synaptic_weights_derivatives : Tensor2

/-- `PerceptronLayer::insert_gradient` (perceptron_layer.cpp, lines 992-1009):
`memcpy` of the bias derivatives into `gradient.data() + index`, then of the
column-major weight-derivative buffer into
`gradient.data() + index + biases_number`; entries elsewhere are untouched. -/
def PerceptronLayer.insert_gradient (L : PerceptronLayer)
    (back_propagation : PerceptronLayerBackPropagation) (index : Nat)
    (gradient : Tensor1) : Tensor1 where
  size := gradient.size
  entry := fun k =>
    if index ≤ k ∧ k < index + L.biases.size then
      back_propagation.biases_derivatives.entry (k - index)
    else if index + L.biases.size ≤ k ∧
        k < index + L.biases.size + L.synaptic_weights.size then
      back_propagation.synaptic_weights_derivatives.linear (k - index - L.biases.size)
    else gradient.entry k

/-- The `TensorMap` reinterpretation of a candidate parameter vector as
biases in `PerceptronLayer::forward_propagate(inputs, potential_parameters,
forward_propagation)` (perceptron_layer.cpp, lines 624-652): a
neurons x 1 map over `potential_parameters.data()`, read linearly by
`calculate_combinations`, so the bias of neuron `i` is parameter `i`. -/
def PerceptronLayer.potential_biases (L : PerceptronLayer)
    (potential_parameters : Tensor1) : Tensor1 where
  size := L.biases.size
  entry := fun i => potential_parameters.entry i

/-- The `TensorMap` reinterpretation of a candidate parameter vector as
synaptic weights in the same `forward_propagate` overload: an
inputs x neurons column-major map over
`potential_parameters.data() + neurons_number`, so the weight at row `r`,
column `c` is parameter `neurons_number + c * inputs_number + r`. -/
def PerceptronLayer.potential_synaptic_weights (L : PerceptronLayer)
    (potential_parameters : Tensor1) : Tensor2 where
  rows := L.synaptic_weights.rows
  cols := L.biases.size
  entry := fun r c =>
    potential_parameters.entry (L.biases.size + c * L.synaptic_weights.rows + r)

/-- C2: the flattened parameter vector produced by `get_parameters`,
consumed by `set_parameters`, written by `insert_gradient` and
reinterpreted by the candidate-parameter `forward_propagate` is laid out
as all biases first, followed by all synaptic weights in column-major
order (input index fastest within each neuron column): for each of the
four operations, bias `j` lives at offset `j` and the weight at input
row `r`, neuron column `c` lives at offset
`biases_number + c * inputs_number + r` of the flattened vector. -/
theorem C2_parameter_vector_layout (L : PerceptronLayer)
    (p gradient : Tensor1) (bp : PerceptronLayerBackPropagation) (index : Nat) :
    (∀ j, j < L.biases.size → L.get_parameters.entry j = L.biases.entry j) ∧
    (∀ r c, r < L.synaptic_weights.rows →
      L.get_parameters.entry (L.biases.size + c * L.synaptic_weights.rows + r) =
        L.synaptic_weights.entry r c) ∧
    (∀ j, (L.set_parameters p index).biases.entry j = p.entry (index + j)) ∧
    (∀ r c, (L.set_parameters p index).synaptic_weights.entry r c =
      p.entry (index + L.biases.size + c * L.synaptic_weights.rows + r)) ∧
    (∀ j, j < L.biases.size →
      (L.insert_gradient bp index gradient).entry (index + j) =
        bp.biases_derivatives.entry j) ∧
    (∀ r c, r < L.synaptic_weights.rows → c < L.synaptic_weights.cols →
      bp.synaptic_weights_derivatives.rows = L.synaptic_weights.rows →
      (L.insert_gradient bp index gradient).entry
          (index + L.biases.size + c * L.synaptic_weights.rows + r) =
        bp.synaptic_weights_derivatives.entry r c) ∧
    (∀ i, (L.potential_biases p).entry i = p.entry i) ∧
    (∀ r c, (L.potential_synaptic_weights p).entry r c =
      p.entry (L.biases.size + c * L.synaptic_weights.rows + r)) := by
  refine ⟨?_, ?_, fun j => rfl, fun r c => rfl, ?_, ?_, fun i => rfl, fun r c => rfl⟩
  · intro j hj
    simp [PerceptronLayer.get_parameters, hj]
  · intro r c hr
    simp only [PerceptronLayer.get_parameters, Nat.add_assoc]
    rw [if_neg (by omega), Nat.add_sub_cancel_left]
    exact L.synaptic_weights.linear_colmajor r c hr
  · intro j hj
    have hcond : index ≤ index + j ∧ index + j < index + L.biases.size := by omega
    simp [PerceptronLayer.insert_gradient, hcond, Nat.add_sub_cancel_left]
  · intro r c hr hc hrows
    have hlt : c * L.synaptic_weights.rows + r <
        L.synaptic_weights.rows * L.synaptic_weights.cols :=
      colmajor_lt _ _ _ _ hr hc
    have hcond1 : ¬ (index ≤ index + L.biases.size + c * L.synaptic_weights.rows + r ∧
        index + L.biases.size + c * L.synaptic_weights.rows + r < index + L.biases.size) := by
      omega
    have hcond2 : index + L.biases.size ≤
        index + L.biases.size + c * L.synaptic_weights.rows + r ∧
        index + L.biases.size + c * L.synaptic_weights.rows + r <
          index + L.biases.size + L.synaptic_weights.size := by
      constructor
      · omega
      · have : L.synaptic_weights.size =
            L.synaptic_weights.rows * L.synaptic_weights.cols := rfl
        omega
    have hsub : index + L.biases.size + c * L.synaptic_weights.rows + r -
        index - L.biases.size = c * L.synaptic_weights.rows + r := by omega
    simp only [PerceptronLayer.insert_gradient, hcond1, if_false, hcond2, if_true, hsub]
    rw [show c * L.synaptic_weights.rows + r =
        c * bp.synaptic_weights_derivatives.rows + r by rw [hrows]]
    exact bp.synaptic_weights_derivatives.linear_colmajor r c (by rw [hrows]; exact hr)

/-- Witness for C2 at a concrete 2-input, 2-neuron layer with concrete
parameter, gradient and derivative buffers at index 1. -/
theorem C2_parameter_vector_layout_witness :
    (({ biases := ⟨2, fun i => (i : ℚ)⟩
        synaptic_weights := ⟨2, 2, fun r c => (r : ℚ) + 10 * (c : ℚ)⟩
        activation_function := ActivationFunction.Logistic } : PerceptronLayer).get_parameters.entry
      (2 + 1 * 2 + 1) =
     ({ biases := ⟨2, fun i => (i : ℚ)⟩
        synaptic_weights := ⟨2, 2, fun r c => (r : ℚ) + 10 * (c : ℚ)⟩
        activation_function := ActivationFunction.Logistic } : PerceptronLayer).synaptic_weights.entry 1 1) ∧
    (({ biases := ⟨2, fun i => (i : ℚ)⟩
        synaptic_weights := ⟨2, 2, fun r c => (r : ℚ) + 10 * (c : ℚ)⟩
        activation_function := ActivationFunction.Logistic } : PerceptronLayer).insert_gradient
      { delta := ⟨1, 2, fun _ _ => 0⟩
        biases_derivatives := ⟨2, fun i => (i : ℚ) + 7⟩
        synaptic_weights_derivatives := ⟨2, 2, fun r c => (r : ℚ) + 100 * (c : ℚ)⟩ }
      1 ⟨7, fun _ => 0⟩).entry (1 + 2 + 0 * 2 + 1) =
      ((1 : ℚ) + 100 * 0) := by
  have h := C2_parameter_vector_layout
    ({ biases := ⟨2, fun i => (i : ℚ)⟩
       synaptic_weights := ⟨2, 2, fun r c => (r : ℚ) + 10 * (c : ℚ)⟩
       activation_function := ActivationFunction.Logistic } : PerceptronLayer)
    (({ biases := ⟨2, fun i => (i : ℚ)⟩
        synaptic_weights := ⟨2, 2, fun r c => (r : ℚ) + 10 * (c : ℚ)⟩
        activation_function := ActivationFunction.Logistic } : PerceptronLayer).get_parameters)
    ⟨7, fun _ => 0⟩
    { delta := ⟨1, 2, fun _ _ => 0⟩
      biases_derivatives := ⟨2, fun i => (i : ℚ) + 7⟩
      synaptic_weights_derivatives := ⟨2, 2, fun r c => (r : ℚ) + 100 * (c : ℚ)⟩ }
    1
  exact ⟨h.2.1 1 1 (by decide), h.2.2.2.2.2.1 1 0 (by decide) (by decide) (by decide)⟩

/-- `PerceptronLayer::calculate_combinations` (perceptron_layer.cpp, lines
489-510) with the `OPENNN_DEBUG` dimension checks compiled in, in source
order: `check_columns_number(inputs, get_inputs_number())`,
`check_dimensions(synaptic_weights, get_inputs_number(), get_neurons_number())`
(rows then columns), `check_dimensions(combinations, inputs.dimension(0),
get_neurons_number())`; these throw `logic_error`, modelled as `Except.error`.
Then each column `i < get_biases_number()` of the column-major buffer is
filled with `biases(i)` (linear read of the biases argument) and the
contraction `inputs.contract(synaptic_weights, A_B)` is added to the whole
buffer. -/
def PerceptronLayer.calculate_combinations (L : PerceptronLayer) (inputs : Tensor2)
    (biases : Tensor1) (synaptic_weights combinations : Tensor2) :
    Except String Tensor2 :=
  if inputs.cols ≠ L.get_inputs_number then
    Except.error ("Number of columns in matrix must be inputs number")
  else if synaptic_weights.rows ≠ L.get_inputs_number then
    Except.error ("Number of rows in matrix must be inputs number")
  else if synaptic_weights.cols ≠ L.get_neurons_number then
    Except.error ("Number of columns in matrix must be neurons number")
  else if combinations.rows ≠ inputs.rows then
    Except.error ("Number of rows in matrix must be batch size")
  else if combinations.cols ≠ L.get_neurons_number then
    Except.error ("Number of columns in matrix must be neurons number")
  else Except.ok
    { rows := combinations.rows
      cols := combinations.cols
      entry := fun s j =>
        (if j < L.get_biases_number then biases.entry j else combinations.entry s j) +
          ∑ i in Finset.range inputs.cols,
            inputs.entry s i * synaptic_weights.entry i j }

/-- C7: calling the combinations operation the way `calculate_outputs`
(perceptron_layer.cpp, lines 584-600) does, with the layer biases and
weights and a batch x neurons buffer: when the inputs column count
matches the layer input count, every output entry at row `s`, column
`j < neurons` is `bias[j]` plus the dot product of input row `s` with
weight column `j`; when it differs, the call fails with a dimension
error. -/
theorem C7_calculate_combinations (L : PerceptronLayer) (inputs combinations : Tensor2)
    (hw : L.synaptic_weights.cols = L.get_neurons_number)
    (hr : combinations.rows = inputs.rows)
    (hc : combinations.cols = L.get_neurons_number) :
    (inputs.cols = L.get_inputs_number →
      ∃ out, L.calculate_combinations inputs L.biases L.synaptic_weights combinations =
          Except.ok out ∧
        out.rows = inputs.rows ∧ out.cols = L.get_neurons_number ∧
        ∀ s j, j < L.get_neurons_number →
          out.entry s j = L.biases.entry j +
            ∑ i in Finset.range L.get_inputs_number,
              inputs.entry s i * L.synaptic_weights.entry i j) ∧
    (inputs.cols ≠ L.get_inputs_number →
      ∃ msg, L.calculate_combinations inputs L.biases L.synaptic_weights combinations =
        Except.error msg) := by
  constructor
  · intro hin
    refine ⟨{ rows := combinations.rows
              cols := combinations.cols
              entry := fun s j =>
                (if j < L.get_biases_number then L.biases.entry j
                  else combinations.entry s j) +
                  ∑ i in Finset.range inputs.cols,
                    inputs.entry s i * L.synaptic_weights.entry i j },
      ?_, hr, hc, ?_⟩
    · rw [PerceptronLayer.calculate_combinations,
        if_neg (by rw [hin]; exact fun h => h rfl),
        if_neg (fun h => h rfl),
        if_neg (by rw [hw]; exact fun h => h rfl),
        if_neg (by rw [hr]; exact fun h => h rfl),
        if_neg (by rw [hc]; exact fun h => h rfl)]
    · intro s j hj
      have hjb : j < L.get_biases_number := hj
      simp only [hjb, if_pos, hin]
  · intro hin
    exact ⟨_, by rw [PerceptronLayer.calculate_combinations, if_pos hin]⟩

/-- Concrete 1-input, 1-neuron layer with bias 3 and weight 2. -/
def exampleLayer : PerceptronLayer where
  biases := ⟨1, fun _ => 3⟩
  synaptic_weights := ⟨1, 1, fun _ _ => 2⟩
  activation_function := ActivationFunction.Linear

/-- Witness for C7 at the concrete layer, a 1 x 1 input and a 1 x 1 buffer. -/
theorem C7_calculate_combinations_witness :
    ((⟨1, 1, fun _ _ => (5 : ℚ)⟩ : Tensor2).cols = exampleLayer.get_inputs_number →
      ∃ out, exampleLayer.calculate_combinations ⟨1, 1, fun _ _ => (5 : ℚ)⟩
          exampleLayer.biases exampleLayer.synaptic_weights ⟨1, 1, fun _ _ => 0⟩ =
          Except.ok out ∧
        out.rows = (⟨1, 1, fun _ _ => (5 : ℚ)⟩ : Tensor2).rows ∧
        out.cols = exampleLayer.get_neurons_number ∧
        ∀ s j, j < exampleLayer.get_neurons_number →
          out.entry s j = exampleLayer.biases.entry j +
            ∑ i in Finset.range exampleLayer.get_inputs_number,
              (⟨1, 1, fun _ _ => (5 : ℚ)⟩ : Tensor2).entry s i *
                exampleLayer.synaptic_weights.entry i j) ∧
    ((⟨1, 1, fun _ _ => (5 : ℚ)⟩ : Tensor2).cols ≠ exampleLayer.get_inputs_number →
      ∃ msg, exampleLayer.calculate_combinations ⟨1, 1, fun _ _ => (5 : ℚ)⟩
          exampleLayer.biases exampleLayer.synaptic_weights ⟨1, 1, fun _ _ => 0⟩ =
        Except.error msg) :=
  C7_calculate_combinations exampleLayer ⟨1, 1, fun _ _ => (5 : ℚ)⟩
    ⟨1, 1, fun _ _ => 0⟩ (by decide) (by decide) (by decide)

/-- `PerceptronLayer::set(new_inputs_number, new_neurons_number,
new_activation_function)` (perceptron_layer.cpp, lines 249-261):
`biases.resize(1, new_neurons_number)`,
`synaptic_weights.resize(new_inputs_number, new_neurons_number)`,
then `set_parameters_random()` writes every linear element from
successive `rand()` draws, modelled by the oracle sequence `rnd`. -/
def PerceptronLayer.set (new_inputs_number new_neurons_number : Nat)
    (rnd : Nat → ℚ) (new_activation_function : ActivationFunction) : PerceptronLayer where
  biases := ⟨new_neurons_number, fun i => rnd i⟩
  synaptic_weights :=
    ⟨new_inputs_number, new_neurons_number,
      fun r c => rnd (new_neurons_number + c * new_inputs_number + r)⟩
  activation_function := new_activation_function

/-- `PerceptronLayer::set_inputs_number` (perceptron_layer.cpp, lines
291-298): `biases.resize(1, neurons_number)` with the current neuron
count, `synaptic_weights.resize(new_inputs_number, neurons_number)`.
Eigen `resize` leaves the contents unspecified; the previous entry
functions stand in for the arbitrary contents, only the dimensions are
meaningful. -/
def PerceptronLayer.set_inputs_number (L : PerceptronLayer)
    (new_inputs_number : Nat) : PerceptronLayer where
  biases := ⟨L.get_neurons_number, L.biases.entry⟩
  synaptic_weights :=
    ⟨new_inputs_number, L.get_neurons_number, L.synaptic_weights.entry⟩
  activation_function := L.activation_function

/-- `PerceptronLayer::set_neurons_number` (perceptron_layer.cpp, lines
305-312): `biases.resize(1, new_neurons_number)`,
`synaptic_weights.resize(inputs_number, new_neurons_number)` with the
current input count. -/
def PerceptronLayer.set_neurons_number (L : PerceptronLayer)
    (new_neurons_number : Nat) : PerceptronLayer where
  biases := ⟨new_neurons_number, L.biases.entry⟩
  synaptic_weights :=
    ⟨L.get_inputs_number, new_neurons_number, L.synaptic_weights.entry⟩
  activation_function := L.activation_function

/-- C8: after `set(inputs, neurons, ...)`, `set_inputs_number` or
`set_neurons_number`, the weight matrix has exactly inputs_number rows
and neurons_number columns, the bias container holds exactly
neurons_number entries, and `get_inputs_number` / `get_neurons_number`
return the configured counts. -/
theorem C8_sizing_invariant (L : PerceptronLayer) (n m : Nat) (rnd : Nat → ℚ)
    (af : ActivationFunction) :
    ((PerceptronLayer.set n m rnd af).synaptic_weights.rows = n ∧
     (PerceptronLayer.set n m rnd af).synaptic_weights.cols = m ∧
     (PerceptronLayer.set n m rnd af).biases.size = m ∧
     (PerceptronLayer.set n m rnd af).get_inputs_number = n ∧
     (PerceptronLayer.set n m rnd af).get_neurons_number = m) ∧
    ((L.set_inputs_number n).synaptic_weights.rows = n ∧
     (L.set_inputs_number n).synaptic_weights.cols = L.get_neurons_number ∧
     (L.set_inputs_number n).biases.size = L.get_neurons_number ∧
     (L.set_inputs_number n).get_inputs_number = n ∧
     (L.set_inputs_number n).get_neurons_number = L.get_neurons_number) ∧
    ((L.set_neurons_number m).synaptic_weights.rows = L.get_inputs_number ∧
     (L.set_neurons_number m).synaptic_weights.cols = m ∧
     (L.set_neurons_number m).biases.size = m ∧
     (L.set_neurons_number m).get_inputs_number = L.get_inputs_number ∧
     (L.set_neurons_number m).get_neurons_number = m) :=
  ⟨⟨rfl, rfl, rfl, rfl, rfl⟩, ⟨rfl, rfl, rfl, rfl, rfl⟩, ⟨rfl, rfl, rfl, rfl, rfl⟩⟩

/-- Specification-side elementwise (Hadamard) product of two matrices. -/
def hadamard (A B : Tensor2) : Tensor2 where
  rows := A.rows
  cols := A.cols
  entry := fun i j => A.entry i j * B.entry i j

/-- Specification-side matrix transpose. -/
def transpose (A : Tensor2) : Tensor2 where
  rows := A.cols
  cols := A.rows
  entry := fun i j => A.entry j i

/-- Specification-side matrix product, contracting over the columns of
the left factor. -/
def matmul (A B : Tensor2) : Tensor2 where
  rows := A.rows
  cols := B.cols
  entry := fun i j => ∑ k in Finset.range A.cols, A.entry i k * B.entry k j

/-- Specification-side column-wise sum over samples (rows). -/
def column_sums (A : Tensor2) : Tensor1 where
  size := A.cols
  entry := fun j => ∑ s in Finset.range A.rows, A.entry s j

/-- `PerceptronLayer::calculate_hidden_delta_perceptron`
(perceptron_layer.cpp, lines 697-705): the delta buffer of this layer is
assigned
`(next_delta * next_activations_derivatives).contract(next_synaptic_weights, A_BT)`,
the elementwise product contracted against dimension 1 of the next-layer
weights, so entry `(s, i)` sums
`next_delta(s, j) * next_derivative(s, j) * next_weights(i, j)` over the
columns `j` of the next delta. -/
def calculate_hidden_delta_perceptron (next_synaptic_weights : Tensor2)
    (next_forward_propagation : PerceptronLayerForwardPropagation)
    (next_back_propagation : PerceptronLayerBackPropagation)
    (back_propagation : PerceptronLayerBackPropagation) :
    PerceptronLayerBackPropagation where
  delta :=
    { rows := next_back_propagation.delta.rows
      cols := next_synaptic_weights.rows
      entry := fun s i =>
        ∑ j in Finset.range next_back_propagation.delta.cols,
          next_back_propagation.delta.entry s j *
            next_forward_propagation.activations_derivatives.entry s j *
            next_synaptic_weights.entry i j }
  biases_derivatives := back_propagation.biases_derivatives
  synaptic_weights_derivatives := back_propagation.synaptic_weights_derivatives

/-- C4: when the next layer is a perceptron layer, the computed delta is
the elementwise product of the next delta and the next activation
derivatives, contracted with the transpose of the next synaptic weight
matrix: `delta = (nextDelta o nextActivationDerivative) * nextWeights^T`,
as matrices (same dimensions and entrywise equal everywhere). -/
theorem C4_hidden_delta_perceptron (next_synaptic_weights : Tensor2)
    (next_forward_propagation : PerceptronLayerForwardPropagation)
    (next_back_propagation back_propagation : PerceptronLayerBackPropagation) :
    ((calculate_hidden_delta_perceptron next_synaptic_weights
        next_forward_propagation next_back_propagation back_propagation).delta.rows =
      (matmul (hadamard next_back_propagation.delta
          next_forward_propagation.activations_derivatives)
        (transpose next_synaptic_weights)).rows) ∧
    ((calculate_hidden_delta_perceptron next_synaptic_weights
        next_forward_propagation next_back_propagation back_propagation).delta.cols =
      (matmul (hadamard next_back_propagation.delta
          next_forward_propagation.activations_derivatives)
        (transpose next_synaptic_weights)).cols) ∧
    (∀ s i,
      (calculate_hidden_delta_perceptron next_synaptic_weights
          next_forward_propagation next_back_propagation back_propagation).delta.entry s i =
        (matmul (hadamard next_back_propagation.delta
            next_forward_propagation.activations_derivatives)
          (transpose next_synaptic_weights)).entry s i) :=
  ⟨rfl, rfl, fun _ _ => rfl⟩

/-- `PerceptronLayer::calculate_error_gradient` (perceptron_layer.cpp,
lines 974-989): `biases_derivatives` is assigned
`(delta * activations_derivatives).sum(dim 0)` and
`synaptic_weights_derivatives` is assigned
`inputs.contract(delta * activations_derivatives, AT_B)`, contracting the
sample dimension of both. -/
def calculate_error_gradient (inputs : Tensor2)
    (forward_propagation : PerceptronLayerForwardPropagation)
    (back_propagation : PerceptronLayerBackPropagation) :
    PerceptronLayerBackPropagation where
  delta := back_propagation.delta
  biases_derivatives :=
    { size := back_propagation.delta.cols
      entry := fun j =>
        ∑ s in Finset.range back_propagation.delta.rows,
          back_propagation.delta.entry s j *
            forward_propagation.activations_derivatives.entry s j }
  synaptic_weights_derivatives :=
    { rows := inputs.cols
      cols := back_propagation.delta.cols
      entry := fun i j =>
        ∑ s in Finset.range inputs.rows,
          inputs.entry s i *
            (back_propagation.delta.entry s j *
              forward_propagation.activations_derivatives.entry s j) }

/-- C5: `calculate_error_gradient` sets the bias gradient to the
column-wise sum over samples of `delta o activationDerivative` and the
weight gradient to `inputs^T * (delta o activationDerivative)`, when the
delta buffer and the inputs agree on the sample count. -/
theorem C5_error_gradient (inputs : Tensor2)
    (forward_propagation : PerceptronLayerForwardPropagation)
    (back_propagation : PerceptronLayerBackPropagation)
    (_hsamples : back_propagation.delta.rows = inputs.rows) :
    ((calculate_error_gradient inputs forward_propagation
        back_propagation).biases_derivatives.size =
      (column_sums (hadamard back_propagation.delta
        forward_propagation.activations_derivatives)).size) ∧
    (∀ j, (calculate_error_gradient inputs forward_propagation
        back_propagation).biases_derivatives.entry j =
      (column_sums (hadamard back_propagation.delta
        forward_propagation.activations_derivatives)).entry j) ∧
    ((calculate_error_gradient inputs forward_propagation
        back_propagation).synaptic_weights_derivatives.rows =
      (matmul (transpose inputs) (hadamard back_propagation.delta
        forward_propagation.activations_derivatives)).rows) ∧
    ((calculate_error_gradient inputs forward_propagation
        back_propagation).synaptic_weights_derivatives.cols =
      (matmul (transpose inputs) (hadamard back_propagation.delta
        forward_propagation.activations_derivatives)).cols) ∧
    (∀ i j, (calculate_error_gradient inputs forward_propagation
        back_propagation).synaptic_weights_derivatives.entry i j =
      (matmul (transpose inputs) (hadamard back_propagation.delta
        forward_propagation.activations_derivatives)).entry i j) := by
  exact ⟨rfl, fun _ => rfl, rfl, rfl, fun _ _ => rfl⟩

/-- Witness for C5 with a concrete 2-sample batch. -/
theorem C5_error_gradient_witness :
    (calculate_error_gradient (⟨2, 1, fun s _ => (s : ℚ) + 1⟩ : Tensor2)
        { combinations := ⟨2, 1, fun _ _ => 0⟩
          activations := ⟨2, 1, fun _ _ => 0⟩
          activations_derivatives := ⟨2, 1, fun _ _ => 2⟩ }
        { delta := ⟨2, 1, fun s _ => (s : ℚ) + 3⟩
          biases_derivatives := ⟨1, fun _ => 0⟩
          synaptic_weights_derivatives := ⟨1, 1, fun _ _ => 0⟩ }).biases_derivatives.entry 0 =
      (column_sums (hadamard (⟨2, 1, fun s _ => (s : ℚ) + 3⟩ : Tensor2)
        (⟨2, 1, fun _ _ => 2⟩ : Tensor2))).entry 0 :=
  (C5_error_gradient (⟨2, 1, fun s _ => (s : ℚ) + 1⟩ : Tensor2)
    { combinations := ⟨2, 1, fun _ _ => 0⟩
      activations := ⟨2, 1, fun _ _ => 0⟩
      activations_derivatives := ⟨2, 1, fun _ _ => 2⟩ }
    { delta := ⟨2, 1, fun s _ => (s : ℚ) + 3⟩
      biases_derivatives := ⟨1, fun _ => 0⟩
      synaptic_weights_derivatives := ⟨1, 1, fun _ _ => 0⟩ } (by decide)).2.1 0

/-- `ProbabilisticLayer::ActivationFunction` enumeration (probabilistic
layer header; the perceptron layer only compares against `Softmax`). -/
inductive ProbabilisticActivationFunction
  | Binary
  | Logistic
  | Competitive
  | Softmax
deriving DecidableEq

/-- The probabilistic next-layer data queried by
`calculate_hidden_delta_probabilistic`: its biases (for the neuron
count), synaptic weights and activation function. -/
structure ProbabilisticLayer where
  biases : Tensor1
  synaptic_weights : Tensor2
  activation_function : ProbabilisticActivationFunction

/-- `ProbabilisticLayer::get_neurons_number`. -/
def ProbabilisticLayer.get_neurons_number (P : ProbabilisticLayer) : Nat :=
  P.biases.size

/-- `ProbabilisticLayer::get_biases_number`. -/
def ProbabilisticLayer.get_biases_number (P : ProbabilisticLayer) : Nat :=
  P.biases.size

/-- `ProbabilisticLayerForwardPropagation` buffers: for the softmax case
the activation derivatives form a batch x neurons x neurons Jacobian. -/
structure ProbabilisticLayerForwardPropagation where
  activations : Tensor2
  activations_derivatives : Tensor3

/-- `ProbabilisticLayerBackPropagation` buffers: the delta
(batch x neurons) and the per-sample error-combinations derivatives
(batch x neurons). -/
structure ProbabilisticLayerBackPropagation where
  delta : Tensor2
  error_combinations_derivatives : Tensor2

/-- The per-sample `TensorMap` taken over
`activations_derivatives.data() + i * step` with
`step = neurons * neurons`: the contiguous neurons x neurons Jacobian
block of sample `i`, modelled as the slice of the rank-3 tensor at
first index `i`. -/
def jacobian_matrix (activations_derivatives : Tensor3) (i : Nat) : Tensor2 where
  rows := activations_derivatives.dim1
  cols := activations_derivatives.dim2
  entry := fun r c => activations_derivatives.entry i r c

/-- Specification-side row extraction: row `s` of a matrix as a vector. -/
def matrix_row (A : Tensor2) (s : Nat) : Tensor1 where
  size := A.cols
  entry := fun j => A.entry s j

/-- Specification-side product of a row vector (as a column) transposed
against a matrix: `(v^T * M)[c] = sum_r v[r] * M[r, c]`. -/
def row_times_matrix (v : Tensor1) (M : Tensor2) : Tensor1 where
  size := M.cols
  entry := fun c => ∑ r in Finset.range M.rows, v.entry r * M.entry r c

/-- The multi-class softmax branch of
`PerceptronLayer::calculate_hidden_delta_probabilistic`
(perceptron_layer.cpp, lines 735-790), reached when the next
probabilistic layer has more than one neuron and softmax activation.
It throws a `logic_error` when the delta column count, or dimension 1
or dimension 2 of the activations-derivatives tensor, differs from the
next-layer neuron count; otherwise, for each sample `i`, row `i` of
`error_combinations_derivatives` is assigned
`delta_row.contract(jacobian_matrix, AT_B)` and this layer delta is
assigned `error_combinations_derivatives.contract(next_weights, A_BT)`.
The result pairs the written error-combinations buffer with the
updated perceptron back-propagation. -/
def calculate_hidden_delta_probabilistic_softmax
    (probabilistic_layer : ProbabilisticLayer)
    (next_forward_propagation : ProbabilisticLayerForwardPropagation)
    (next_back_propagation : ProbabilisticLayerBackPropagation)
    (back_propagation : PerceptronLayerBackPropagation) :
    Except String (Tensor2 × PerceptronLayerBackPropagation) :=
  if next_back_propagation.delta.cols ≠ probabilistic_layer.get_neurons_number then
    Except.error ("Number of columns in delta must be equal to number of neurons in probabilistic layer")
  else if next_forward_propagation.activations_derivatives.dim1 ≠
      probabilistic_layer.get_neurons_number then
    Except.error ("Dimension 1 of activations derivatives must be equal to number of neurons in probabilistic layer")
  else if next_forward_propagation.activations_derivatives.dim2 ≠
      probabilistic_layer.get_neurons_number then
    Except.error ("Dimension 2 of activations derivatives must be equal to number of neurons in probabilistic layer")
  else
    Except.ok
      (⟨next_back_propagation.delta.rows, probabilistic_layer.get_neurons_number,
        fun s j =>
          ∑ r in Finset.range probabilistic_layer.get_neurons_number,
            next_back_propagation.delta.entry s r *
              next_forward_propagation.activations_derivatives.entry s r j⟩,
       { delta :=
          { rows := next_back_propagation.delta.rows
            cols := probabilistic_layer.synaptic_weights.rows
            entry := fun s i =>
              ∑ j in Finset.range probabilistic_layer.get_neurons_number,
                (∑ r in Finset.range probabilistic_layer.get_neurons_number,
                  next_back_propagation.delta.entry s r *
                    next_forward_propagation.activations_derivatives.entry s r j) *
                  probabilistic_layer.synaptic_weights.entry i j }
         biases_derivatives := back_propagation.biases_derivatives
         synaptic_weights_derivatives := back_propagation.synaptic_weights_derivatives })

/-- C3: in the multi-class softmax case, when the delta column count and
both trailing dimensions of the next-layer activations-derivatives
Jacobian equal the next-layer neuron count, the computation succeeds
and, for each sample independently,
`errorCombinations[sample] = nextDelta[sample]^T * JacobianMatrix[sample]`
and `delta = errorCombinations * nextWeights^T`; when any of the three
dimensions disagrees, it fails with a dimension error. -/
theorem C3_hidden_delta_probabilistic_softmax
    (probabilistic_layer : ProbabilisticLayer)
    (next_forward_propagation : ProbabilisticLayerForwardPropagation)
    (next_back_propagation : ProbabilisticLayerBackPropagation)
    (back_propagation : PerceptronLayerBackPropagation) :
    (next_back_propagation.delta.cols = probabilistic_layer.get_neurons_number →
     next_forward_propagation.activations_derivatives.dim1 =
        probabilistic_layer.get_neurons_number →
     next_forward_propagation.activations_derivatives.dim2 =
        probabilistic_layer.get_neurons_number →
      ∃ ec bp, calculate_hidden_delta_probabilistic_softmax probabilistic_layer
          next_forward_propagation next_back_propagation back_propagation =
          Except.ok (ec, bp) ∧
        ec.rows = next_back_propagation.delta.rows ∧
        ec.cols = probabilistic_layer.get_neurons_number ∧
        (∀ s j, ec.entry s j =
          (row_times_matrix (matrix_row next_back_propagation.delta s)
            (jacobian_matrix next_forward_propagation.activations_derivatives s)).entry j) ∧
        bp.delta.rows = next_back_propagation.delta.rows ∧
        bp.delta.cols = probabilistic_layer.synaptic_weights.rows ∧
        (∀ s i, bp.delta.entry s i =
          (matmul ec (transpose probabilistic_layer.synaptic_weights)).entry s i)) ∧
    ((next_back_propagation.delta.cols ≠ probabilistic_layer.get_neurons_number ∨
      next_forward_propagation.activations_derivatives.dim1 ≠
        probabilistic_layer.get_neurons_number ∨
      next_forward_propagation.activations_derivatives.dim2 ≠
        probabilistic_layer.get_neurons_number) →
      ∃ msg, calculate_hidden_delta_probabilistic_softmax probabilistic_layer
          next_forward_propagation next_back_propagation back_propagation =
        Except.error msg) := by
  constructor
  · intro hd h1 h2
    refine ⟨⟨next_back_propagation.delta.rows, probabilistic_layer.get_neurons_number,
        fun s j =>
          ∑ r in Finset.range probabilistic_layer.get_neurons_number,
            next_back_propagation.delta.entry s r *
              next_forward_propagation.activations_derivatives.entry s r j⟩,
      { delta :=
          { rows := next_back_propagation.delta.rows
            cols := probabilistic_layer.synaptic_weights.rows
            entry := fun s i =>
              ∑ j in Finset.range probabilistic_layer.get_neurons_number,
                (∑ r in Finset.range probabilistic_layer.get_neurons_number,
                  next_back_propagation.delta.entry s r *
                    next_forward_propagation.activations_derivatives.entry s r j) *
                  probabilistic_layer.synaptic_weights.entry i j }
        biases_derivatives := back_propagation.biases_derivatives
        synaptic_weights_derivatives := back_propagation.synaptic_weights_derivatives },
      ?_, rfl, rfl, ?_, rfl, rfl, ?_⟩
    · rw [calculate_hidden_delta_probabilistic_softmax,
        if_neg (by rw [hd]; exact fun h => h rfl),
        if_neg (by rw [h1]; exact fun h => h rfl),
        if_neg (by rw [h2]; exact fun h => h rfl)]
    · intro s j
      simp only [row_times_matrix, matrix_row, jacobian_matrix, h1]
    · intro s i
      rfl
  · intro hbad
    rw [calculate_hidden_delta_probabilistic_softmax]
    by_cases hd : next_back_propagation.delta.cols ≠ probabilistic_layer.get_neurons_number
    · rw [if_pos hd]
      exact ⟨_, rfl⟩
    · rw [if_neg hd]
      by_cases h1 : next_forward_propagation.activations_derivatives.dim1 ≠
          probabilistic_layer.get_neurons_number
      · rw [if_pos h1]
        exact ⟨_, rfl⟩
      · rw [if_neg h1]
        have h2 : next_forward_propagation.activations_derivatives.dim2 ≠
            probabilistic_layer.get_neurons_number := by tauto
        rw [if_pos h2]
        exact ⟨_, rfl⟩

/-- Witness for C3: the successful branch at a concrete two-neuron
softmax layer with one sample. -/
theorem C3_hidden_delta_probabilistic_softmax_witness :
    ∃ ec bp, calculate_hidden_delta_probabilistic_softmax
        { biases := ⟨2, fun _ => 0⟩
          synaptic_weights := ⟨3, 2, fun r c => (r : ℚ) + (c : ℚ)⟩
          activation_function := ProbabilisticActivationFunction.Softmax }
        { activations := ⟨1, 2, fun _ _ => 0⟩
          activations_derivatives := ⟨1, 2, 2, fun _ r c => if r = c then 1 else -1⟩ }
        { delta := ⟨1, 2, fun _ j => (j : ℚ) + 1⟩
          error_combinations_derivatives := ⟨1, 2, fun _ _ => 0⟩ }
        { delta := ⟨1, 3, fun _ _ => 0⟩
          biases_derivatives := ⟨2, fun _ => 0⟩
          synaptic_weights_derivatives := ⟨3, 2, fun _ _ => 0⟩ } =
        Except.ok (ec, bp) ∧
      ec.rows = 1 ∧ ec.cols = 2 ∧
      (∀ s j, ec.entry s j =
        (row_times_matrix (matrix_row (⟨1, 2, fun _ j => (j : ℚ) + 1⟩ : Tensor2) s)
          (jacobian_matrix (⟨1, 2, 2, fun _ r c => if r = c then 1 else -1⟩ : Tensor3) s)).entry j) ∧
      bp.delta.rows = 1 ∧ bp.delta.cols = 3 ∧
      (∀ s i, bp.delta.entry s i =
        (matmul ec (transpose (⟨3, 2, fun r c => (r : ℚ) + (c : ℚ)⟩ : Tensor2))).entry s i) :=
  (C3_hidden_delta_probabilistic_softmax
    { biases := ⟨2, fun _ => 0⟩
      synaptic_weights := ⟨3, 2, fun r c => (r : ℚ) + (c : ℚ)⟩
      activation_function := ProbabilisticActivationFunction.Softmax }
    { activations := ⟨1, 2, fun _ _ => 0⟩
      activations_derivatives := ⟨1, 2, 2, fun _ r c => if r = c then 1 else -1⟩ }
    { delta := ⟨1, 2, fun _ j => (j : ℚ) + 1⟩
      error_combinations_derivatives := ⟨1, 2, fun _ _ => 0⟩ }
    { delta := ⟨1, 3, fun _ _ => 0⟩
      biases_derivatives := ⟨2, fun _ => 0⟩
      synaptic_weights_derivatives := ⟨3, 2, fun _ _ => 0⟩ }).1
    (by decide) (by decide) (by decide)

/-- Modelled from the spec: `NUMERIC_LIMITS_MIN` comes from config.h,
which is absent from src/; it is the minimum positive normalized value
of the floating scalar `type`, here 2 to the power -126 (the float
minimum).  Only its positivity matters for the claims below. -/
def NUMERIC_LIMITS_MIN : ℚ := 1 / 2 ^ 126

/-- `is_zero` (tensor_utilities.cpp, lines 56-66): false as soon as some
entry has absolute value above `NUMERIC_LIMITS_MIN`, true otherwise. -/
def is_zero (tensor : Tensor1) : Bool :=
  (List.range tensor.size).all fun i =>
    decide (|tensor.entry i| ≤ NUMERIC_LIMITS_MIN)

/-- `is_constant` (tensor_utilities.cpp, lines 108-121): a double loop
over all index pairs, returning false on the first pair whose
difference is not exactly zero. -/
def is_constant (vector : Tensor1) : Bool :=
  (List.range vector.size).all fun i =>
    (List.range vector.size).all fun j =>
      decide (vector.entry i - vector.entry j = 0)

/-- C10: `is_constant(v)` returns true if and only if every pair of
elements of `v` is exactly equal (difference exactly zero, with no
tolerance); in particular it returns true for the empty vector and for
any vector of length one. -/
theorem C10_is_constant (vector : Tensor1) :
    (is_constant vector = true ↔
      ∀ i, i < vector.size → ∀ j, j < vector.size →
        vector.entry i = vector.entry j) ∧
    (vector.size = 0 → is_constant vector = true) ∧
    (vector.size = 1 → is_constant vector = true) := by
  have hmain : is_constant vector = true ↔
      ∀ i, i < vector.size → ∀ j, j < vector.size →
        vector.entry i = vector.entry j := by
    simp [is_constant, List.all_eq_true, List.mem_range, sub_eq_zero]
  refine ⟨hmain, ?_, ?_⟩
  · intro h0
    exact hmain.mpr (fun i hi => by omega)
  · intro h1
    refine hmain.mpr (fun i hi j hj => ?_)
    have hi0 : i = 0 := by omega
    have hj0 : j = 0 := by omega
    rw [hi0, hj0]

/-- Witness for C10: a vector of length one is constant. -/
theorem C10_is_constant_witness :
    is_constant ⟨1, fun i => (i : ℚ) + 9⟩ = true :=
  (C10_is_constant ⟨1, fun i => (i : ℚ) + 9⟩).2.2 rfl

/-- `kronecker_product` (tensor_utilities.cpp, lines 240-257): the
outer product of two vectors, a size x size matrix with
`direct(i, j) = vector(i) * other_vector(j)`, both dimensions taken
from the first vector. -/
def kronecker_product (vector other_vector : Tensor1) : Tensor2 where
  rows := vector.size
  cols := vector.size
  entry := fun i j => vector.entry i * other_vector.entry j

/-- Specification-side inner product of two vectors, contracting over
the size of the first. -/
def dot_product (v w : Tensor1) : ℚ :=
  ∑ i in Finset.range v.size, v.entry i * w.entry i

/-- Specification-side matrix-vector product. -/
def matrix_vector (H : Tensor2) (v : Tensor1) : Tensor1 where
  size := H.rows
  entry := fun i => ∑ j in Finset.range H.cols, H.entry i j * v.entry j

/-- Specification-side identity matrix. -/
def identity_matrix (n : Nat) : Tensor2 where
  rows := n
  cols := n
  entry := fun i j => if i = j then 1 else 0

/-- `QuasiNewtonMethod::InverseHessianApproximationMethod`
(quasi_newton_method.h, line 61). -/
inductive InverseHessianApproximationMethod
  | DFP
  | BFGS
deriving DecidableEq

/-- Modelled from the spec: the body of
`QuasiNewtonMethod::calculate_inverse_hessian_approximation` is only
declared in src/opennn/quasi_newton_method.h (lines 118-123); its
implementation file quasi_newton_method.cpp is absent from src/.
Following spec section 4.2, with `dp` the parameters difference and
`dg` the gradient difference: the DFP update is
`H + (dp x dp)/(dp.dg) - (H dg)x(H dg)/(dg.H dg)`, the BFGS update is
`H + (1 + (dg.H dg)/(dp.dg)) (dp x dp)/(dp.dg) -
((H dg) x dp + dp x (H dg))/(dp.dg)`; the guard resets the result to
the identity matrix when `dp.dg` is numerically zero (below
`NUMERIC_LIMITS_MIN` in magnitude, the numeric-zero convention of
`is_zero` in tensor_utilities.cpp) or `dp` or `dg` is the zero
vector. -/
def calculate_inverse_hessian_approximation
    (method : InverseHessianApproximationMethod)
    (parameters_difference gradient_difference : Tensor1)
    (old_inverse_hessian : Tensor2) : Tensor2 :=
  if is_zero parameters_difference || is_zero gradient_difference ||
      decide (|dot_product parameters_difference gradient_difference| <
        NUMERIC_LIMITS_MIN) then
    identity_matrix parameters_difference.size
  else
    match method with
    | InverseHessianApproximationMethod.DFP =>
      { rows := old_inverse_hessian.rows
        cols := old_inverse_hessian.cols
        entry := fun i j =>
          old_inverse_hessian.entry i j +
            (kronecker_product parameters_difference parameters_difference).entry i j /
              dot_product parameters_difference gradient_difference -
            (kronecker_product
                (matrix_vector old_inverse_hessian gradient_difference)
                (matrix_vector old_inverse_hessian gradient_difference)).entry i j /
              dot_product gradient_difference
                (matrix_vector old_inverse_hessian gradient_difference) }
    | InverseHessianApproximationMethod.BFGS =>
      { rows := old_inverse_hessian.rows
        cols := old_inverse_hessian.cols
        entry := fun i j =>
          old_inverse_hessian.entry i j +
            (1 + dot_product gradient_difference
                (matrix_vector old_inverse_hessian gradient_difference) /
              dot_product parameters_difference gradient_difference) *
              (kronecker_product parameters_difference parameters_difference).entry i j /
              dot_product parameters_difference gradient_difference -
            ((kronecker_product
                (matrix_vector old_inverse_hessian gradient_difference)
                parameters_difference).entry i j +
              (kronecker_product parameters_difference
                (matrix_vector old_inverse_hessian gradient_difference)).entry i j) /
              dot_product parameters_difference gradient_difference }

/-- C6: for either inverse-Hessian update method, if the inner product
of the parameters difference and the gradient difference is numerically
zero, or either difference is the zero vector, the resulting
inverse-Hessian approximation is exactly the identity matrix (whose
entries are the finite constants 0 and 1, hence free of NaN). -/
theorem C6_degenerate_inverse_hessian_reset
    (method : InverseHessianApproximationMethod)
    (parameters_difference gradient_difference : Tensor1)
    (old_inverse_hessian : Tensor2)
    (hguard : is_zero parameters_difference = true ∨
      is_zero gradient_difference = true ∨
      |dot_product parameters_difference gradient_difference| <
        NUMERIC_LIMITS_MIN) :
    (calculate_inverse_hessian_approximation method parameters_difference
        gradient_difference old_inverse_hessian).rows =
      parameters_difference.size ∧
    (calculate_inverse_hessian_approximation method parameters_difference
        gradient_difference old_inverse_hessian).cols =
      parameters_difference.size ∧
    ∀ i j, (calculate_inverse_hessian_approximation method
        parameters_difference gradient_difference
        old_inverse_hessian).entry i j = if i = j then 1 else 0 := by
  have hcond : (is_zero parameters_difference ||
      is_zero gradient_difference ||
      decide (|dot_product parameters_difference gradient_difference| <
        NUMERIC_LIMITS_MIN)) = true := by
    simp only [Bool.or_eq_true, decide_eq_true_eq]
    tauto
  rw [calculate_inverse_hessian_approximation.eq_def, if_pos hcond]
  exact ⟨rfl, rfl, fun i j => rfl⟩

/-- Witness for C6: the all-zero differences of the first epoch reset a
concrete 2 x 2 inverse Hessian to the identity. -/
theorem C6_degenerate_inverse_hessian_reset_witness :
    (calculate_inverse_hessian_approximation
        InverseHessianApproximationMethod.BFGS
        ⟨2, fun _ => 0⟩ ⟨2, fun _ => 0⟩ ⟨2, 2, fun _ _ => 5⟩).entry 0 1 =
      if (0 : Nat) = 1 then 1 else 0 :=
  (C6_degenerate_inverse_hessian_reset InverseHessianApproximationMethod.BFGS
    ⟨2, fun _ => 0⟩ ⟨2, fun _ => 0⟩ ⟨2, 2, fun _ _ => 5⟩
    (Or.inl (by norm_num [is_zero, NUMERIC_LIMITS_MIN]))).2.2 0 1

/-- Real-valued vector for the l2-norm utilities, whose source computes
a square root; entries are real numbers since the square root of a
rational need not be rational. -/
structure RTensor1 where
  size : Nat
  entry : Nat → ℝ

/-- Real-valued matrix for the l2-norm Hessian. -/
structure RTensor2 where
  rows : Nat
  cols : Nat
  entry : Nat → Nat → ℝ

/-- The real-valued `NUMERIC_LIMITS_MIN` threshold (config.h, absent
from src/): the minimum positive normalized float, 2 to the power
-126.  Only its positivity matters for the claims below. -/
noncomputable def NUMERIC_LIMITS_MIN_real : ℝ := 1 / 2 ^ 126

/-- `l2_norm` (tensor_utilities.cpp, lines 282-302):
`vector.square().sum().sqrt()`.  The NaN branch of the source only
holds commented-out diagnostics and returns the value unchanged. -/
noncomputable def l2_norm (vector : RTensor1) : ℝ :=
  Real.sqrt (∑ i in Finset.range vector.size, vector.entry i ^ 2)

/-- `l2_norm_gradient` (tensor_utilities.cpp, lines 305-317): when the
norm is below `NUMERIC_LIMITS_MIN` the gradient buffer is zeroed and
the function returns; otherwise the gradient is `vector / norm`.
No error path exists. -/
noncomputable def l2_norm_gradient (vector : RTensor1) : RTensor1 :=
  if l2_norm vector < NUMERIC_LIMITS_MIN_real then
    ⟨vector.size, fun _ => 0⟩
  else
    ⟨vector.size, fun i => vector.entry i / l2_norm vector⟩

/-- Real-valued `kronecker_product` (tensor_utilities.cpp, lines
240-257), as used by `l2_norm_hessian`. -/
noncomputable def kronecker_product_real (vector other_vector : RTensor1) : RTensor2 where
  rows := vector.size
  cols := vector.size
  entry := fun i j => vector.entry i * other_vector.entry j

/-- `l2_norm_hessian` (tensor_utilities.cpp, lines 320-332): when the
norm is below `NUMERIC_LIMITS_MIN` the Hessian buffer is zeroed and the
function returns; otherwise the Hessian is
`kronecker_product(vector, vector) / norm^3`.  No error path exists. -/
noncomputable def l2_norm_hessian (vector : RTensor1) : RTensor2 :=
  if l2_norm vector < NUMERIC_LIMITS_MIN_real then
    ⟨vector.size, vector.size, fun _ _ => 0⟩
  else
    ⟨vector.size, vector.size, fun i j =>
      (kronecker_product_real vector vector).entry i j /
        (l2_norm vector * l2_norm vector * l2_norm vector)⟩

/-- C9: for every vector whose l2 norm is below the numeric minimum
threshold (in particular the zero vector), `l2_norm_gradient` produces
the zero vector and `l2_norm_hessian` the zero matrix; both functions
are total (no error is raised). -/
theorem C9_l2_norm_degenerate (vector : RTensor1)
    (hnorm : l2_norm vector < NUMERIC_LIMITS_MIN_real) :
    ((l2_norm_gradient vector).size = vector.size) ∧
    (∀ i, (l2_norm_gradient vector).entry i = 0) ∧
    ((l2_norm_hessian vector).rows = vector.size) ∧
    ((l2_norm_hessian vector).cols = vector.size) ∧
    (∀ i j, (l2_norm_hessian vector).entry i j = 0) := by
  rw [l2_norm_gradient, if_pos hnorm, l2_norm_hessian, if_pos hnorm]
  exact ⟨rfl, fun _ => rfl, rfl, rfl, fun _ _ => rfl⟩

/-- Witness for C9 at the zero vector of size 2, whose l2 norm is 0. -/
theorem C9_l2_norm_degenerate_witness :
    (∀ i, (l2_norm_gradient ⟨2, fun _ => 0⟩).entry i = 0) ∧
    (∀ i j, (l2_norm_hessian ⟨2, fun _ => 0⟩).entry i j = 0) := by
  have hz : l2_norm ⟨2, fun _ => 0⟩ < NUMERIC_LIMITS_MIN_real := by
    have h0 : l2_norm ⟨2, fun _ => 0⟩ = 0 := by
      simp [l2_norm]
    rw [h0, NUMERIC_LIMITS_MIN_real]
    norm_num
  exact ⟨(C9_l2_norm_degenerate ⟨2, fun _ => 0⟩ hz).2.1,
    (C9_l2_norm_degenerate ⟨2, fun _ => 0⟩ hz).2.2.2.2⟩

end OpenNN
